import Mathlib

/-!
Shallow embedding of `src/app/main.py` (a FastAPI request-parsing tutorial app)
together with the declarative validation semantics its schemas rely on.

Modelling conventions:
* JSON values are modelled by the inductive `JValue`; Python floats are
  modelled as exact rationals (`Rat`), which is faithful for every value the
  claims mention.
* A handler returning a Python dict is modelled as an association list
  `List (String × JValue)` (Python dicts preserve insertion order).
* Pydantic validation of a schema is modelled as an explicit `bind` function
  from the raw request data to `Except (List (String × String)) α`, where an
  error is a list of (field path, error kind) pairs, collected fail-slow
  across fields exactly as pydantic does.
* Pydantic's lax string-to-number coercion for JSON bodies and its
  whitespace-trimming for numeric strings are not needed by any claim and are
  not modelled; path/query integers are parsed from optionally-signed decimal
  digit strings.
-/

/-- JSON-like values appearing in requests and responses. -/
inductive JValue where
  | str (s : String)
  | int (i : Int)
  | num (q : Rat)
  | bool (b : Bool)
  | null
  | arr (xs : List JValue)
  | obj (fields : List (String × JValue))
deriving BEq

/-- `class ModelName(str, Enum)`: the closed set {alexnet, resnet, lenet}. -/
inductive ModelName where
  | alexnet
  | resnet
  | lenet
deriving DecidableEq

/-- The string value carried by each `ModelName` enum member. -/
def ModelName.value : ModelName → String
  | .alexnet => "alexnet"
  | .resnet => "resnet"
  | .lenet => "lenet"

/-- Path-parameter coercion into the `ModelName` enum: an exact,
case-sensitive match against one of the three declared values; anything else
is a validation failure (`none`). -/
def ModelName.parse : String → Option ModelName
  | "alexnet" => some .alexnet
  | "resnet" => some .resnet
  | "lenet" => some .lenet
  | _ => none

/-- Handler `get_model` (`GET /models/{model_name}`), mirroring the source's
two `if`s followed by a fallthrough `return`. -/
def get_model (model_name : ModelName) : List (String × JValue) :=
  if model_name = ModelName.alexnet then
    [("model_name", .str model_name.value), ("message", .str "Deep Learning FTW!")]
  else if model_name.value == "lenet" then
    [("model_name", .str model_name.value), ("message", .str "LeCNN all the images")]
  else
    [("model_name", .str model_name.value), ("message", .str "Have some residuals")]

/-- `GET /models/{model_name}` end to end: bind the path segment to the enum,
then run the handler; a failed bind produces no handler result. -/
def models_endpoint (model_name : String) : Option (List (String × JValue)) :=
  (ModelName.parse model_name).map get_model

/-- Pydantic model `Item`: name (required str), description (optional str,
max_length 300), price (required float), tax (optional float). -/
structure Item where
  name : String
  description : Option String
  price : Rat
  tax : Option Rat
deriving DecidableEq

/-- An optional string rendered into JSON (`None` → `null`). -/
def joptStr : Option String → JValue
  | none => .null
  | some s => .str s

/-- An optional float rendered into JSON (`None` → `null`). -/
def joptNum : Option Rat → JValue
  | none => .null
  | some q => .num q

/-- `item.dict()`: the four declared fields in declaration order. -/
def itemDict (item : Item) : List (String × JValue) :=
  [("name", .str item.name), ("description", joptStr item.description),
   ("price", .num item.price), ("tax", joptNum item.tax)]

/-- Handler `create_item` (`POST /items/`): echo the item dict, appending
`price_with_tax = price + tax` exactly when `tax` is not `None`. -/
def create_item (item : Item) : List (String × JValue) :=
  match item.tax with
  | some t => itemDict item ++ [("price_with_tax", .num (item.price + t))]
  | none => itemDict item

/-- Handler `update_item` (`PUT /items/{item_id}`):
`{"item_id": item_id, **item.dict()}`. -/
def update_item (item_id : Int) (item : Item) : List (String × JValue) :=
  ("item_id", .int item_id) :: itemDict item

/-- The raw JSON body fields offered for binding to `Item` (each declared
field either absent or carrying a JSON value). -/
structure RawItem where
  name : Option JValue
  description : Option JValue
  price : Option JValue
  tax : Option JValue

/-- Validation of `Item.name : str` (required). -/
def validate_name : Option JValue → Except (String × String) String
  | none => .error ("name", "missing")
  | some (.str s) => .ok s
  | some _ => .error ("name", "string_type")

/-- Validation of `Item.description : str | None` with `max_length=300`. -/
def validate_description : Option JValue → Except (String × String) (Option String)
  | none => .ok none
  | some .null => .ok none
  | some (.str s) =>
      if s.length ≤ 300 then .ok (some s) else .error ("description", "string_too_long")
  | some _ => .error ("description", "string_type")

/-- Validation of `Item.price : float` (required). -/
def validate_price : Option JValue → Except (String × String) Rat
  | none => .error ("price", "missing")
  | some (.num q) => .ok q
  | some (.int i) => .ok (i : Rat)
  | some _ => .error ("price", "float_type")

/-- Validation of `Item.tax : float | None` (optional, default `None`). -/
def validate_tax : Option JValue → Except (String × String) (Option Rat)
  | none => .ok none
  | some .null => .ok none
  | some (.num q) => .ok (some q)
  | some (.int i) => .ok (some (i : Rat))
  | some _ => .error ("tax", "float_type")

/-- The error contributed by one field's validation result: none on success,
one (field path, error kind) pair on failure. -/
def errOf {α : Type} : Except (String × String) α → List (String × String)
  | .ok _ => []
  | .error e => [e]

/-- All field errors of one validation pass over a raw `Item` body, in field
declaration order (pydantic collects them fail-slow). -/
def itemFieldErrors (raw : RawItem) : List (String × String) :=
  errOf (validate_name raw.name) ++ errOf (validate_description raw.description)
    ++ errOf (validate_price raw.price) ++ errOf (validate_tax raw.tax)

/-- Pydantic bind of a raw JSON body to `Item`: all-or-nothing; on any
failure every field error of the pass is reported. -/
def bindItem (raw : RawItem) : Except (List (String × String)) Item :=
  match validate_name raw.name, validate_description raw.description,
        validate_price raw.price, validate_tax raw.tax with
  | .ok n, .ok d, .ok p, .ok t => .ok { name := n, description := d, price := p, tax := t }
  | rn, rd, rp, rt => .error (errOf rn ++ errOf rd ++ errOf rp ++ errOf rt)

/-- The digit character for a value `d < 10`. -/
def digitChar (d : Nat) : Char := Char.ofNat (48 + d)

/-- Numeric value of a digit character. -/
def digitVal (c : Char) : Nat := c.toNat - 48

/-- Parse a nonempty all-digit string as a natural number. -/
def parseNat (s : String) : Option Nat :=
  if s.data ≠ [] ∧ s.data.all Char.isDigit then
    some (s.data.foldl (fun a c => a * 10 + digitVal c) 0)
  else
    none

/-- Path/query coercion of a string to `int`: an optionally `-`-signed
nonempty decimal digit string. -/
def parseInt (s : String) : Option Int :=
  match s.data with
  | [] => none
  | c :: cs =>
      if c = '-' then (parseNat (String.mk cs)).map (fun n => -(n : Int))
      else (parseNat s).map (fun n => (n : Int))

/-- The decimal representation of a natural number (via `Nat.digits`,
least-significant first, hence the reverse). -/
def natDecimalRepr (n : Nat) : String :=
  if n = 0 then "0" else String.mk (((Nat.digits 10 n).map digitChar).reverse)

/-- The decimal representation of an integer. -/
def intDecimalRepr (i : Int) : String :=
  if i < 0 then "-" ++ natDecimalRepr i.natAbs else natDecimalRepr i.toNat

/-- Handler `read_item` (`GET /items/{item_id}`): echo
`{"item_id": item_id, "q": q}`. -/
def read_item (item_id : Int) (q : Option String) : List (String × JValue) :=
  [("item_id", .int item_id), ("q", joptStr q)]

/-- `GET /items/{item_id}` end to end: bind the path segment to `int`, then
run the handler. -/
def items_id_endpoint (item_id : String) (q : Option String) :
    Option (List (String × JValue)) :=
  (parseInt item_id).map (fun n => read_item n q)

/-- The `Literal["created_at", "updated_at"]` type of `FilterParams.order_by`. -/
inductive OrderBy where
  | created_at
  | updated_at
deriving DecidableEq

/-- Pydantic model `FilterParams` (`model_config = {"extra": "forbid"}`):
limit (int, gt=0, le=100, default 100), offset (int, ge=0, default 0),
order_by (literal, default created_at), tags (list of str, default []). -/
structure FilterParams where
  limit : Int
  offset : Int
  order_by : OrderBy
  tags : List String
deriving DecidableEq

/-- The query keys declared by `FilterParams`. -/
def filterParamsKeys : List String := ["limit", "offset", "order_by", "tags"]

/-- Validation of `FilterParams.limit` from the query string:
default 100, else an int with `gt=0`, `le=100`. -/
def validate_limit (query : List (String × String)) : Except (String × String) Int :=
  match query.lookup "limit" with
  | none => .ok 100
  | some s =>
      match parseInt s with
      | none => .error ("limit", "int_parsing")
      | some n =>
          if n ≤ 0 then .error ("limit", "greater_than")
          else if 100 < n then .error ("limit", "less_than_equal")
          else .ok n

/-- Validation of `FilterParams.offset`: default 0, else an int with `ge=0`. -/
def validate_offset (query : List (String × String)) : Except (String × String) Int :=
  match query.lookup "offset" with
  | none => .ok 0
  | some s =>
      match parseInt s with
      | none => .error ("offset", "int_parsing")
      | some n => if n < 0 then .error ("offset", "greater_than_equal") else .ok n

/-- Validation of `FilterParams.order_by`: default `created_at`, else one of
the two literals. -/
def validate_order_by (query : List (String × String)) : Except (String × String) OrderBy :=
  match query.lookup "order_by" with
  | none => .ok .created_at
  | some "created_at" => .ok .created_at
  | some "updated_at" => .ok .updated_at
  | some _ => .error ("order_by", "literal_error")

/-- `FilterParams.tags`: every query value keyed `tags` (repeated keys form
the list); any string is valid. -/
def collect_tags (query : List (String × String)) : List String :=
  (query.filter (fun kv => kv.1 = "tags")).map (fun kv => kv.2)

/-- `extra = "forbid"`: one `extra_forbidden` error per undeclared key. -/
def extraErrors (declared : List String) (query : List (String × String)) :
    List (String × String) :=
  (query.filter (fun kv => kv.1 ∉ declared)).map (fun kv => (kv.1, "extra_forbidden"))

/-- Pydantic bind of the query string to `FilterParams` (`GET /query-items/`):
closed schema, fail-slow, all-or-nothing. -/
def bindFilterParams (query : List (String × String)) :
    Except (List (String × String)) FilterParams :=
  match validate_limit query, validate_offset query, validate_order_by query,
        extraErrors filterParamsKeys query with
  | .ok l, .ok o, .ok ob, [] =>
      .ok { limit := l, offset := o, order_by := ob, tags := collect_tags query }
  | rl, ro, rob, ex => .error (ex ++ errOf rl ++ errOf ro ++ errOf rob)

/-- Handler `read_query_items` (`GET /query-items/`) returns the bound model
itself, so the endpoint is bind followed by the identity. -/
def query_items_endpoint (query : List (String × String)) :
    Except (List (String × String)) FilterParams :=
  bindFilterParams query

/-- Pydantic model `FormData` (`model_config = {"extra": "forbid"}`):
username and password, both required strings. -/
structure FormData where
  username : String
  password : String
deriving DecidableEq

/-- The form fields declared by `FormData`. -/
def formDataKeys : List String := ["username", "password"]

/-- A required string field taken from submitted form fields. -/
def requireField (k : String) (form : List (String × String)) :
    Except (String × String) String :=
  match form.lookup k with
  | none => .error (k, "missing")
  | some v => .ok v

/-- Pydantic bind of submitted form fields to `FormData` (`POST /login/`):
closed schema, fail-slow, all-or-nothing. -/
def bindFormData (form : List (String × String)) :
    Except (List (String × String)) FormData :=
  match requireField "username" form, requireField "password" form,
        extraErrors formDataKeys form with
  | .ok u, .ok p, [] => .ok { username := u, password := p }
  | ru, rp, ex => .error (ex ++ errOf ru ++ errOf rp)

/-- Python truthiness of `str | None` (`if q:`): `None` and `""` are falsy. -/
def strOptTruthy : Option String → Bool
  | none => false
  | some s => s ≠ ""

/-- The `results` dict built by handler `read_items`, including the
`{"q": q}` update when `q` is truthy. -/
def read_items_results (q : Option String) : List (String × JValue) :=
  let results : List (String × JValue) :=
    [("items", .arr [.obj [("item_id", .str "Foo")], .obj [("item_id", .str "Bar")]])]
  if strOptTruthy q then
    match q with
    | some s => results ++ [("q", .str s)]
    | none => results
  else results

/-- Handler `read_items` (`GET /items/`): builds `results` but ends in a bare
`return`, so the handler's value is `None` for every input. -/
def read_items (q : Option String) : Option (List (String × JValue)) :=
  let _results := read_items_results q
  none

/-- Validation of the `/items/` query parameter `q` (`max_length=50`). -/
def bindItemsQ (q : Option String) : Except (List (String × String)) (Option String) :=
  match q with
  | none => .ok none
  | some s => if s.length ≤ 50 then .ok (some s) else .error [("q", "string_too_long")]

/-- The `results` dict built by handler `read_regex_items` (same shape as
`read_items`). -/
def read_regex_items_results (q : Option String) : List (String × JValue) :=
  read_items_results q

/-- Handler `read_regex_items` (`GET /regex-items/`): also ends in a bare
`return`, so its value is `None` for every input. -/
def read_regex_items (q : Option String) : Option (List (String × JValue)) :=
  let _results := read_regex_items_results q
  none

/-- Validation of the `/regex-items/` query parameter `q`
(`min_length=3`, `max_length=50`, `pattern="^fixedquery$"`). -/
def bindRegexQ (q : Option String) : Except (List (String × String)) (Option String) :=
  match q with
  | none => .ok none
  | some s =>
      let errs :=
        (if s.length < 3 then [("q", "string_too_short")] else [])
          ++ (if 50 < s.length then [("q", "string_too_long")] else [])
          ++ (if s ≠ "fixedquery" then [("q", "string_pattern_mismatch")] else [])
      if errs = [] then .ok (some s) else .error errs

/-- Handler `create_file` (`POST /files/`): `{"file_size": len(file)}`. -/
def create_file (file : List UInt8) : List (String × JValue) :=
  [("file_size", .int (file.length : Int))]

/-- Binding of the raw byte body for `file: Annotated[bytes, File()]`: any
byte content binds; only a missing file part fails. -/
def bindFile (body : Option (List UInt8)) : Except (List (String × String)) (List UInt8) :=
  match body with
  | some b => .ok b
  | none => .error [("file", "missing")]

/-- `POST /files/` end to end: bind the byte body, then run the handler. -/
def files_endpoint (body : Option (List UInt8)) :
    Except (List (String × String)) (List (String × JValue)) :=
  (bindFile body).map create_file

/-! Theorems about the claims. -/

/-- C1: `GET /models/{model_name}` returns the dedicated message for each of
alexnet, lenet and resnet, and for every path value outside the closed set
{alexnet, resnet, lenet} the bind fails and no handler result is produced. -/
theorem models_endpoint_spec :
    models_endpoint "alexnet" =
      some [("model_name", .str "alexnet"), ("message", .str "Deep Learning FTW!")] ∧
    models_endpoint "lenet" =
      some [("model_name", .str "lenet"), ("message", .str "LeCNN all the images")] ∧
    models_endpoint "resnet" =
      some [("model_name", .str "resnet"), ("message", .str "Have some residuals")] ∧
    ∀ s : String, s ≠ "alexnet" → s ≠ "resnet" → s ≠ "lenet" →
      models_endpoint s = none := by
  refine ⟨rfl, rfl, rfl, ?_⟩
  intro s h1 h2 h3
  unfold models_endpoint ModelName.parse
  split
  · exact absurd rfl h1
  · exact absurd rfl h2
  · exact absurd rfl h3
  · rfl

/-- Witness for C1 at the concrete out-of-set value "squeezenet". -/
theorem models_endpoint_spec_witness : models_endpoint "squeezenet" = none :=
  models_endpoint_spec.2.2.2 "squeezenet" (by decide) (by decide) (by decide)

/-- C2: `POST /items/` echoes every field of the body, includes
`price_with_tax = price + tax` exactly when tax is present, and on
`{"name": "a", "price": 10, "tax": 2}` yields `price_with_tax = 12`. -/
theorem create_item_spec :
    (∀ item : Item,
      (create_item item).lookup "name" = some (.str item.name) ∧
      (create_item item).lookup "description" = some (joptStr item.description) ∧
      (create_item item).lookup "price" = some (.num item.price) ∧
      (create_item item).lookup "tax" = some (joptNum item.tax) ∧
      (create_item item).lookup "price_with_tax"
        = item.tax.map (fun t => JValue.num (item.price + t))) ∧
    create_item { name := "a", description := none, price := 10, tax := some 2 }
      = [("name", .str "a"), ("description", .null), ("price", .num 10),
         ("tax", .num 2), ("price_with_tax", .num 12)] := by
  constructor
  · intro item
    obtain ⟨n, d, p, t⟩ := item
    cases t <;> simp [create_item, itemDict, List.lookup]
  · norm_num [create_item, itemDict, joptStr, joptNum]

/-- C6: `PUT /items/{item_id}` returns the item's fields with `item_id`
merged in; every submitted field appears unchanged. -/
theorem update_item_spec :
    ∀ (item_id : Int) (item : Item),
      (update_item item_id item).lookup "item_id" = some (.int item_id) ∧
      (update_item item_id item).lookup "name" = some (.str item.name) ∧
      (update_item item_id item).lookup "description" = some (joptStr item.description) ∧
      (update_item item_id item).lookup "price" = some (.num item.price) ∧
      (update_item item_id item).lookup "tax" = some (joptNum item.tax) := by
  intro item_id item
  simp [update_item, itemDict, List.lookup]

/-- C7: when `q` is absent, the `GET /items/` bind succeeds yet the handler
produces no result object (its bare `return` yields `None`). -/
theorem read_items_absent_q :
    bindItemsQ none = .ok none ∧ read_items none = none :=
  ⟨rfl, rfl⟩

/-- C8: `read_items` and `read_regex_items` return `None` for every input,
even when `q` is supplied and passes validation; the `results` dict each
builds (including the `{"q": q}` update) is discarded by the bare return. -/
theorem handlers_discard_results :
    (∀ q, read_items q = none) ∧
    (∀ q, read_regex_items q = none) ∧
    bindItemsQ (some "fixedquery") = .ok (some "fixedquery") ∧
    bindRegexQ (some "fixedquery") = .ok (some "fixedquery") ∧
    ("q", JValue.str "fixedquery") ∈ read_items_results (some "fixedquery") ∧
    ("q", JValue.str "fixedquery") ∈ read_regex_items_results (some "fixedquery") := by
  refine ⟨fun q => rfl, fun q => rfl, rfl, rfl, ?_, ?_⟩
  · simp [read_items_results, strOptTruthy]
  · simp [read_regex_items_results, read_items_results, strOptTruthy]

/-- C10: `POST /files/` binds any raw byte body and responds with
`file_size` equal to exactly the number of bytes in the content. -/
theorem files_endpoint_spec :
    ∀ body : List UInt8,
      ∃ resp, files_endpoint (some body) = .ok resp ∧
        resp.lookup "file_size" = some (.int (body.length : Int)) := by
  intro body
  exact ⟨create_file body, rfl, by simp [create_file, List.lookup]⟩

lemma mem_extraErrors {declared : List String} {query : List (String × String)}
    {k v : String} (hmem : (k, v) ∈ query) (hnd : k ∉ declared) :
    (k, "extra_forbidden") ∈ extraErrors declared query := by
  simp only [extraErrors, List.mem_map, List.mem_filter]
  exact ⟨(k, v), ⟨hmem, by simpa using hnd⟩, rfl⟩

lemma bindFilterParams_cases (query : List (String × String)) :
    (∃ l o ob, validate_limit query = .ok l ∧ validate_offset query = .ok o ∧
      validate_order_by query = .ok ob ∧ extraErrors filterParamsKeys query = [] ∧
      bindFilterParams query = .ok ⟨l, o, ob, collect_tags query⟩) ∨
    (bindFilterParams query = .error (extraErrors filterParamsKeys query
        ++ errOf (validate_limit query) ++ errOf (validate_offset query)
        ++ errOf (validate_order_by query)) ∧
      extraErrors filterParamsKeys query ++ errOf (validate_limit query)
        ++ errOf (validate_offset query) ++ errOf (validate_order_by query) ≠ []) := by
  rcases hl : validate_limit query with el | l <;>
    rcases ho : validate_offset query with eo | o <;>
      rcases hob : validate_order_by query with eb | ob <;>
        rcases hexl : extraErrors filterParamsKeys query with _ | ⟨e, rest⟩ <;>
          first
            | exact Or.inl ⟨l, o, ob, rfl, rfl, rfl, rfl,
                by simp [bindFilterParams, hl, ho, hob, hexl]⟩
            | exact Or.inr ⟨by simp [bindFilterParams, hl, ho, hob, hexl, errOf],
                by simp [hl, ho, hob, hexl, errOf]⟩

lemma bindFormData_cases (form : List (String × String)) :
    (∃ u p, requireField "username" form = .ok u ∧ requireField "password" form = .ok p ∧
      extraErrors formDataKeys form = [] ∧ bindFormData form = .ok ⟨u, p⟩) ∨
    (bindFormData form = .error (extraErrors formDataKeys form
        ++ errOf (requireField "username" form) ++ errOf (requireField "password" form)) ∧
      extraErrors formDataKeys form ++ errOf (requireField "username" form)
        ++ errOf (requireField "password" form) ≠ []) := by
  rcases hu : requireField "username" form with eu | u <;>
    rcases hp : requireField "password" form with ep | p <;>
      rcases hexl : extraErrors formDataKeys form with _ | ⟨e, rest⟩ <;>
        first
          | exact Or.inl ⟨u, p, rfl, rfl, rfl, by simp [bindFormData, hu, hp, hexl]⟩
          | exact Or.inr ⟨by simp [bindFormData, hu, hp, hexl, errOf],
              by simp [hu, hp, hexl, errOf]⟩

/-- C3: the closed-schema endpoints (`GET /query-items/` with `FilterParams`,
`POST /login/` with `FormData`) reject any request containing an undeclared
field: the bind fails with an `extra_forbidden` error naming that field. -/
theorem closed_schema_rejects_extras :
    (∀ (query : List (String × String)) (k v : String),
      (k, v) ∈ query → k ∉ filterParamsKeys →
      ∃ es, bindFilterParams query = .error es ∧ (k, "extra_forbidden") ∈ es) ∧
    (∀ (form : List (String × String)) (k v : String),
      (k, v) ∈ form → k ∉ formDataKeys →
      ∃ es, bindFormData form = .error es ∧ (k, "extra_forbidden") ∈ es) := by
  constructor
  · intro query k v hmem hnd
    have hex := mem_extraErrors hmem hnd
    rcases bindFilterParams_cases query with ⟨l, o, ob, _, _, _, hnil, _⟩ | ⟨herr, _⟩
    · rw [hnil] at hex; cases hex
    · exact ⟨_, herr,
        List.mem_append_left _ (List.mem_append_left _ (List.mem_append_left _ hex))⟩
  · intro form k v hmem hnd
    have hex := mem_extraErrors hmem hnd
    rcases bindFormData_cases form with ⟨u, p, _, _, hnil, _⟩ | ⟨herr, _⟩
    · rw [hnil] at hex; cases hex
    · exact ⟨_, herr, List.mem_append_left _ (List.mem_append_left _ hex)⟩

/-- Witness for C3: a query and a form that are valid except for one
undeclared field are both rejected. -/
theorem closed_schema_rejects_extras_witness :
    (∃ es, bindFilterParams [("limit", "50"), ("foo", "x")] = .error es ∧
      ("foo", "extra_forbidden") ∈ es) ∧
    (∃ es, bindFormData [("username", "u"), ("password", "p"), ("foo", "x")] = .error es ∧
      ("foo", "extra_forbidden") ∈ es) :=
  ⟨closed_schema_rejects_extras.1 [("limit", "50"), ("foo", "x")] "foo" "x"
      (by simp) (by decide),
    closed_schema_rejects_extras.2 [("username", "u"), ("password", "p"), ("foo", "x")]
      "foo" "x" (by simp) (by decide)⟩

lemma validate_limit_ok {query : List (String × String)} {l : Int}
    (h : validate_limit query = .ok l) :
    0 < l ∧ l ≤ 100 ∧ (query.lookup "limit" = none → l = 100) := by
  rcases hlk : query.lookup "limit" with _ | s
  · simp [validate_limit, hlk] at h
    refine ⟨by omega, by omega, fun _ => by omega⟩
  · simp [validate_limit, hlk] at h
    rcases hpi : parseInt s with _ | n
    · rw [hpi] at h; simp at h
    · rw [hpi] at h
      simp at h
      split at h
      · simp at h
      · split at h
        · simp at h
        · simp at h
          refine ⟨by omega, by omega, fun hc => by simp at hc⟩

lemma validate_offset_ok {query : List (String × String)} {o : Int}
    (h : validate_offset query = .ok o) :
    0 ≤ o ∧ (query.lookup "offset" = none → o = 0) := by
  rcases hlk : query.lookup "offset" with _ | s
  · simp [validate_offset, hlk] at h
    exact ⟨by omega, fun _ => by omega⟩
  · simp [validate_offset, hlk] at h
    rcases hpi : parseInt s with _ | n
    · rw [hpi] at h; simp at h
    · rw [hpi] at h
      simp at h
      split at h
      · simp at h
      · simp at h
        exact ⟨by omega, fun hc => by simp at hc⟩

lemma validate_order_by_ok {query : List (String × String)} {ob : OrderBy}
    (h : validate_order_by query = .ok ob) :
    query.lookup "order_by" = none → ob = .created_at := by
  intro hq
  rw [validate_order_by, hq] at h
  exact (Except.ok.inj h).symm

/-- C4: a successful `GET /query-items/` bind yields a limit in 1..100 and a
nonnegative offset, with the declared defaults when the keys are omitted;
`limit=101` and `limit=0` fail the bounds checks, while the bounds 1 and 100
themselves bind. -/
theorem filter_params_spec :
    (∀ (query : List (String × String)) (fp : FilterParams),
      bindFilterParams query = .ok fp →
        0 < fp.limit ∧ fp.limit ≤ 100 ∧ 0 ≤ fp.offset ∧
        (query.lookup "limit" = none → fp.limit = 100) ∧
        (query.lookup "offset" = none → fp.offset = 0) ∧
        (query.lookup "order_by" = none → fp.order_by = .created_at)) ∧
    bindFilterParams [] = .ok ⟨100, 0, .created_at, []⟩ ∧
    bindFilterParams [("limit", "101")] = .error [("limit", "less_than_equal")] ∧
    bindFilterParams [("limit", "0")] = .error [("limit", "greater_than")] ∧
    bindFilterParams [("limit", "100")] = .ok ⟨100, 0, .created_at, []⟩ ∧
    bindFilterParams [("limit", "1")] = .ok ⟨1, 0, .created_at, []⟩ ∧
    bindFilterParams [("order_by", "name")] = .error [("order_by", "literal_error")] := by
  refine ⟨?_, rfl, rfl, rfl, rfl, rfl, rfl⟩
  intro query fp h
  rcases bindFilterParams_cases query with ⟨l, o, ob, hl, ho, hob, _, hok⟩ | ⟨herr, _⟩
  · rw [h] at hok
    obtain rfl := (Except.ok.inj hok).symm
    obtain ⟨h1, h2, h3⟩ := validate_limit_ok hl
    obtain ⟨h4, h5⟩ := validate_offset_ok ho
    exact ⟨h1, h2, h4, h3, h5, validate_order_by_ok hob⟩
  · rw [h] at herr; simp at herr

/-- Witness for C4 at the concrete query `limit=50`. -/
theorem filter_params_spec_witness :
    0 < FilterParams.limit ⟨50, 0, .created_at, []⟩ :=
  (filter_params_spec.1 [("limit", "50")] ⟨50, 0, .created_at, []⟩ rfl).1

lemma bindItem_cases (raw : RawItem) :
    (itemFieldErrors raw = [] ∧ ∃ item, bindItem raw = .ok item) ∨
    (itemFieldErrors raw ≠ [] ∧ bindItem raw = .error (itemFieldErrors raw)) := by
  rcases hn : validate_name raw.name with en | n <;>
    rcases hd : validate_description raw.description with ed | d <;>
      rcases hp : validate_price raw.price with ep | p <;>
        rcases ht : validate_tax raw.tax with et | t <;>
          first
            | exact Or.inl ⟨by simp [itemFieldErrors, hn, hd, hp, ht, errOf],
                ⟨⟨n, d, p, t⟩, by simp [bindItem, hn, hd, hp, ht]⟩⟩
            | exact Or.inr ⟨by simp [itemFieldErrors, hn, hd, hp, ht, errOf],
                by simp [bindItem, itemFieldErrors, hn, hd, hp, ht, errOf]⟩

lemma errOf_validate_name_fst {x : Option JValue} {e : String × String}
    (h : e ∈ errOf (validate_name x)) : e.1 = "name" := by
  rcases x with _ | v
  · simp [validate_name, errOf] at h; rw [h]
  · cases v <;> simp [validate_name, errOf] at h <;> rw [h]

lemma errOf_validate_description_fst {x : Option JValue} {e : String × String}
    (h : e ∈ errOf (validate_description x)) : e.1 = "description" := by
  rcases x with _ | v
  · simp [validate_description, errOf] at h
  · cases v with
    | str s =>
        simp only [validate_description] at h
        split at h
        · simp [errOf] at h
        · simp [errOf] at h; rw [h]
    | _ => simp [validate_description, errOf] at h <;> rw [h]

lemma errOf_validate_price_fst {x : Option JValue} {e : String × String}
    (h : e ∈ errOf (validate_price x)) : e.1 = "price" := by
  rcases x with _ | v
  · simp [validate_price, errOf] at h; rw [h]
  · cases v <;> simp [validate_price, errOf] at h <;> rw [h]

lemma errOf_validate_tax_fst {x : Option JValue} {e : String × String}
    (h : e ∈ errOf (validate_tax x)) : e.1 = "tax" := by
  rcases x with _ | v
  · simp [validate_tax, errOf] at h
  · cases v <;> simp [validate_tax, errOf] at h <;> rw [h]

lemma mem_itemFieldErrors_fst {raw : RawItem} {e : String × String}
    (h : e ∈ itemFieldErrors raw) : e.1 ∈ ["name", "description", "price", "tax"] := by
  rw [itemFieldErrors] at h
  rcases List.mem_append.1 h with h3 | ht
  · rcases List.mem_append.1 h3 with h2 | hp
    · rcases List.mem_append.1 h2 with hn | hd
      · simp [errOf_validate_name_fst hn]
      · simp [errOf_validate_description_fst hd]
    · simp [errOf_validate_price_fst hp]
  · simp [errOf_validate_tax_fst ht]

/-- C9: when the validation pass over an `Item` body produces exactly one
field error, the bind fails with exactly that one entry, naming a declared
field; in general the bind fails exactly when the pass collected at least one
error, reports all of them (fail-slow), and exposes no partial result. -/
theorem item_bind_error_collection :
    (∀ (raw : RawItem) (f k : String),
      itemFieldErrors raw = [(f, k)] →
        bindItem raw = .error [(f, k)] ∧ f ∈ ["name", "description", "price", "tax"]) ∧
    (∀ (raw : RawItem) (es : List (String × String)),
      bindItem raw = .error es → es = itemFieldErrors raw ∧ es ≠ []) ∧
    (∀ raw : RawItem, itemFieldErrors raw = [] → ∃ item, bindItem raw = .ok item) := by
  refine ⟨?_, ?_, ?_⟩
  · intro raw f k hone
    rcases bindItem_cases raw with ⟨hnil, _⟩ | ⟨hne, herr⟩
    · rw [hone] at hnil; cases hnil
    · refine ⟨by rw [herr, hone], ?_⟩
      have hmem : (f, k) ∈ itemFieldErrors raw := by
        rw [hone]; exact List.mem_singleton_self _
      exact mem_itemFieldErrors_fst hmem
  · intro raw es herr
    rcases bindItem_cases raw with ⟨hnil, item, hok⟩ | ⟨hne, herr2⟩
    · rw [hok] at herr; simp at herr
    · rw [herr] at herr2
      have hes : es = itemFieldErrors raw := Except.error.inj herr2
      exact ⟨hes, by rw [hes]; exact hne⟩
  · intro raw hnil
    rcases bindItem_cases raw with ⟨_, hex⟩ | ⟨hne, _⟩
    · exact hex
    · exact absurd hnil hne

/-- Witness for C9: a body missing only `name` fails with exactly the one
error naming `name`. -/
theorem item_bind_error_collection_witness :
    bindItem ⟨none, none, some (.num 10), none⟩ = .error [("name", "missing")] ∧
    "name" ∈ ["name", "description", "price", "tax"] :=
  item_bind_error_collection.1 ⟨none, none, some (.num 10), none⟩ "name" "missing" rfl

lemma digit_facts : ∀ d : Nat, d < 10 →
    (digitChar d).isDigit = true ∧ digitVal (digitChar d) = d := by decide

lemma foldl_digitChars (L : List Nat) (hL : ∀ d ∈ L, d < 10) (acc : Nat) :
    ((L.map digitChar).reverse.foldl (fun a c => a * 10 + digitVal c) acc)
      = acc * 10 ^ L.length + Nat.ofDigits 10 L := by
  induction L generalizing acc with
  | nil => simp [Nat.ofDigits]
  | cons d L ih =>
      have hd : d < 10 := hL d (List.mem_cons_self d L)
      have hL2 : ∀ x ∈ L, x < 10 := fun x hx => hL x (List.mem_cons_of_mem _ hx)
      simp only [List.map_cons, List.reverse_cons, List.foldl_append, List.foldl_cons,
        List.foldl_nil]
      rw [ih hL2 acc, (digit_facts d hd).2, Nat.ofDigits_cons, List.length_cons]
      ring

lemma parseNat_natDecimalRepr (n : Nat) : parseNat (natDecimalRepr n) = some n := by
  by_cases h0 : n = 0
  · subst h0; rfl
  · have hdig : ∀ d ∈ Nat.digits 10 n, d < 10 :=
      fun d hd => Nat.digits_lt_base (by norm_num) hd
    have hne : Nat.digits 10 n ≠ [] := Nat.digits_ne_nil_iff_ne_zero.mpr h0
    rw [natDecimalRepr, if_neg h0]
    simp only [parseNat]
    rw [if_pos ?hc]
    case hc =>
      constructor
      · show ((Nat.digits 10 n).map digitChar).reverse ≠ []
        simp [hne]
      · show (((Nat.digits 10 n).map digitChar).reverse.all Char.isDigit) = true
        rw [List.all_eq_true]
        intro c hc
        rw [List.mem_reverse, List.mem_map] at hc
        obtain ⟨d, hd, rfl⟩ := hc
        exact (digit_facts d (hdig d hd)).1
    show some (((Nat.digits 10 n).map digitChar).reverse.foldl
      (fun a c => a * 10 + digitVal c) 0) = some n
    rw [foldl_digitChars _ hdig 0, Nat.ofDigits_digits]
    simp

lemma natDecimalRepr_data_digits (n : Nat) :
    (natDecimalRepr n).data ≠ [] ∧ ∀ c ∈ (natDecimalRepr n).data, c.isDigit = true := by
  by_cases h0 : n = 0
  · subst h0; exact ⟨by decide, by decide⟩
  · rw [natDecimalRepr, if_neg h0]
    constructor
    · show ((Nat.digits 10 n).map digitChar).reverse ≠ []
      simpa using Nat.digits_ne_nil_iff_ne_zero.mpr h0
    · intro c hc
      rw [show (String.mk (((Nat.digits 10 n).map digitChar).reverse)).data
          = ((Nat.digits 10 n).map digitChar).reverse from rfl] at hc
      rw [List.mem_reverse, List.mem_map] at hc
      obtain ⟨d, hd, rfl⟩ := hc
      exact (digit_facts d (Nat.digits_lt_base (by norm_num) hd)).1

lemma parseInt_intDecimalRepr (i : Int) : parseInt (intDecimalRepr i) = some i := by
  rcases lt_or_le i 0 with hneg | hpos
  · rw [intDecimalRepr, if_pos hneg]
    have hdata : ("-" ++ natDecimalRepr i.natAbs).data
        = '-' :: (natDecimalRepr i.natAbs).data := rfl
    simp only [parseInt, hdata, if_true]
    rw [show ({ data := (natDecimalRepr i.natAbs).data } : String)
        = natDecimalRepr i.natAbs from rfl]
    rw [parseNat_natDecimalRepr]
    show some (-(i.natAbs : Int)) = some i
    have hi : -(i.natAbs : Int) = i := by omega
    rw [hi]
  · rw [intDecimalRepr, if_neg (not_lt.mpr hpos)]
    obtain ⟨hne, hdig⟩ := natDecimalRepr_data_digits i.toNat
    rcases hcs : (natDecimalRepr i.toNat).data with _ | ⟨c, cs⟩
    · exact absurd hcs hne
    · simp only [parseInt, hcs]
      have hc : c.isDigit = true := hdig c (by rw [hcs]; exact List.mem_cons_self _ _)
      have hcne : ¬ (c = '-') := by
        intro hcc; subst hcc; exact absurd hc (by decide)
      rw [if_neg hcne, parseNat_natDecimalRepr]
      show some ((i.toNat : Int)) = some i
      have hi : ((i.toNat : Int)) = i := by omega
      rw [hi]

/-- C5: binding a path segment that is the decimal representation of an
integer `n` to `GET /items/{item_id}` succeeds, coerces it to exactly `n`,
and the handler echoes `{"item_id": n, "q": q}`; in particular "5" → 5. -/
theorem int_path_roundtrip :
    (∀ (n : Int) (q : Option String),
      items_id_endpoint (intDecimalRepr n) q
        = some [("item_id", .int n), ("q", joptStr q)]) ∧
    parseInt "5" = some 5 := by
  refine ⟨?_, rfl⟩
  intro n q
  simp [items_id_endpoint, parseInt_intDecimalRepr, read_item]
